import Mathlib

/-!
Verification of the Motor OS userspace runtime bridge (`rt.vdso`):
the POSIX descriptor table (`src/sys/lib/rt.vdso/src/posix.rs`) and the
dispatch-table installation routine (`src/sys/lib/rt.vdso/src/main.rs`),
shallowly embedded in Lean 4.

Modelling conventions:
- Rust `Result<T, ErrorCode>` plus the possibility of `panic!`/`todo!` is
  embedded as the three-valued outcome type `POut`.
- `Arc<dyn PosixFile>` values stored in the descriptor table are embedded as
  `PObj`: either the `Placeholder` tombstone or a file object tagged with an
  identity; `Arc::clone` (sharing) is value copying of the tag, so two handles
  alias the same object exactly when their slots hold the same `PObj`.
- `Vec` is embedded as `List`, with `Vec::push`/`Vec::pop` on the free list
  mapped to `List.cons`/head removal (the most recently pushed element sits at
  the head; both are LIFO, only the printing order differs).
- `RtFd` is `i32` in the source; it is embedded as `Int`.  Rust's
  `fd as usize` sign-extends a negative `i32` to a huge `usize`, so indexing
  with a negative fd always misses; the embedding guards with `0 ≤ fd` and
  `fd.toNat < length` accordingly.
- Locking (`spin::Mutex`) is elided: operations are modelled as atomic state
  transformers on the whole `Descriptors` record, matching the linearized
  behaviour of the source.
-/

namespace MotorOs

/-- Modelled from the spec: the error-code type of the external `moto_rt` crate
(not under `src/`).  The spec only distinguishes ok / bad-handle /
invalid-argument; the concrete numerals are immaterial, only distinctness is
used. -/
abbrev ErrorCode := Nat

def E_OK : ErrorCode := 0

def E_BAD_HANDLE : ErrorCode := 1

def E_INVALID_ARGUMENT : ErrorCode := 2

/-- `RtFd` (`i32` in `moto_rt`), embedded as `Int`. -/
abbrev RtFd := Int

/-- Poll token (opaque to this layer). -/
abbrev Token := Nat

/-- Poll interest set (opaque to this layer). -/
abbrev Interests := Nat

/-- Outcome of a capability-interface call: `Ok`, `Err(code)`, or a Rust
`panic!`/`todo!` abort. -/
inductive POut (α : Type) where
  | ok (a : α)
  | err (e : ErrorCode)
  | panic
deriving DecidableEq, Repr

/-- `true` iff the outcome is `Err(_)` (the call "fails with an error"). -/
def POut.isErr : POut α → Bool
  | .err _ => true
  | _ => false

/-- `true` iff the call panicked. -/
def POut.isPanic : POut α → Bool
  | .panic => true
  | _ => false

/-- The capability interface `trait PosixFile` (posix.rs lines 23-48), embedded
as a record of operation implementations.  A Rust `impl` that overrides only a
subset of the methods corresponds to a record literal that sets only those
fields; the remaining fields take the trait's default bodies, which are the
field defaults below, copied from the source:
`read`/`write`/`flush`/`close` default to `Err(E_BAD_HANDLE)`, and
`poll_add`/`poll_set`/`poll_del` default to `todo!()` (a panic; the source
carries `Err(E_INVALID_ARGUMENT)` only as commented-out dead text). -/
structure PosixFile where
  read : List Nat → POut Nat := fun _ => POut.err E_BAD_HANDLE
  write : List Nat → POut Nat := fun _ => POut.err E_BAD_HANDLE
  flush : POut Unit := POut.err E_BAD_HANDLE
  close : POut Unit := POut.err E_BAD_HANDLE
  poll_add : RtFd → Token → Interests → POut Unit := fun _ _ _ => POut.panic
  poll_set : RtFd → Token → Interests → POut Unit := fun _ _ _ => POut.panic
  poll_del : RtFd → POut Unit := fun _ => POut.panic

/-- A variant that implements (overrides) none of the operations: every field
is the trait default. -/
def defaultFile : PosixFile := {}

/-- `struct Placeholder; impl PosixFile for Placeholder` (posix.rs lines
114-131): `read`/`write`/`flush`/`close` are overridden to `panic!()`; the
three poll operations are not overridden, so they keep the trait defaults
(`todo!()`, also a panic). -/
def Placeholder : PosixFile :=
  { read := fun _ => POut.panic
    write := fun _ => POut.panic
    flush := POut.panic
    close := POut.panic }

/-- An `Arc<dyn PosixFile>` as stored in the descriptor table: either the
`Placeholder` tombstone or a real file object, identified by a tag.  Cloning an
`Arc` copies the tag, so slots holding equal `PObj` values alias the same
underlying object. -/
inductive PObj where
  | placeholder
  | file (id : Nat)
deriving DecidableEq, Repr

/-- `struct Descriptors` (posix.rs lines 136-139): the slot array and the
free list (each behind its own `Mutex` in the source; the locks are elided). -/
structure Descriptors where
  descriptors : List PObj
  freelist : List RtFd
deriving DecidableEq, Repr

namespace Descriptors

/-- `Descriptors::new` (posix.rs lines 142-147). -/
def new : Descriptors := ⟨[], []⟩

/-- `Descriptors::get` (posix.rs lines 149-156): `descriptors.get(fd as usize)`
(Rust's checked `Vec` access, `Option`-valued, embedded as `List.get?`) and
clone the `Arc` on a hit.  A negative `fd` sign-extends to a huge `usize` in
the source and always misses, hence the `0 ≤ fd` guard.  Note the source does
not distinguish live slots from `Placeholder` slots: any in-range slot is
returned. -/
def get (d : Descriptors) (fd : RtFd) : Option PObj :=
  if 0 ≤ fd then d.descriptors.get? fd.toNat else none

/-- `Descriptors::pop` (posix.rs lines 158-173): on `descriptors.get_mut(fd as
usize)` hitting, swap a fresh `Placeholder` into the slot, push `fd` onto the
free list and return the previous occupant; on a miss return `None` leaving
the state unchanged.  The source pushes `fd` onto the free list whenever the
swap happened, with no check that `fd` is not already there. -/
def pop (d : Descriptors) (fd : RtFd) : Option PObj × Descriptors :=
  if 0 ≤ fd then
    match d.descriptors.get? fd.toNat with
    | some entry =>
        ( some entry,
          { descriptors := d.descriptors.set fd.toNat PObj.placeholder
            freelist := fd :: d.freelist } )
    | none => (none, d)
  else
    (none, d)

/-- `Descriptors::get_free_fd` (posix.rs lines 175-187): reuse a free-list
entry if available, else append a `Placeholder` slot and return its index.
(The source's `assert!(res < RtFd::MAX as usize)` overflow guard is not
modelled; handles stay far below `i32::MAX` here.) -/
def get_free_fd (d : Descriptors) : RtFd × Descriptors :=
  match d.freelist with
  | fd :: rest => (fd, { d with freelist := rest })
  | [] =>
      ( ((d.descriptors.length : Int)),
        { d with descriptors := d.descriptors ++ [PObj.placeholder] } )

/-- `Descriptors::insert` (posix.rs lines 189-201): reserve a handle via
`get_free_fd`, build the object by applying the constructor to the handle, and
store it in the reserved slot.  The source's `descriptors.get_mut(fd as usize)
.unwrap()` panics if the reserved handle is out of range; that panic is the
`none` case here. -/
def insert (d : Descriptors) (func : RtFd → PObj) : Option (RtFd × Descriptors) :=
  let r := d.get_free_fd
  if 0 ≤ r.1 then
    match r.2.descriptors.get? r.1.toNat with
    | some _ =>
        some (r.1,
          { r.2 with descriptors := r.2.descriptors.set r.1.toNat (func r.1) })
    | none => none
  else
    none

end Descriptors

/-- `new_file` (posix.rs lines 206-211): `DESCRIPTORS.insert(constructor)`. -/
def new_file (d : Descriptors) (constructor : RtFd → PObj) : Option (RtFd × Descriptors) :=
  d.insert constructor

/-- `push_file` (posix.rs lines 213-215): `new_file(|_| val)`. -/
def push_file (d : Descriptors) (val : PObj) : Option (RtFd × Descriptors) :=
  new_file d (fun _ => val)

/-- `get_file` (posix.rs lines 217-219): `DESCRIPTORS.get(fd)`. -/
def get_file (d : Descriptors) (fd : RtFd) : Option PObj :=
  d.get fd

/-- `pop_file` (posix.rs lines 221-223): `DESCRIPTORS.pop(fd)`. -/
def pop_file (d : Descriptors) (fd : RtFd) : Option PObj × Descriptors :=
  d.pop fd

/-- `posix_close` (posix.rs lines 91-102): `pop_file(rt_fd)`; on a miss return
`E_BAD_HANDLE`, otherwise invoke `close()` on the popped object and return its
result.  The first component records the objects `close()` was invoked on
during the call (one per successful pop); `close()`'s own return value is
object-specific and not needed by the properties below. -/
def posix_close (d : Descriptors) (fd : RtFd) : List PObj × Descriptors :=
  match pop_file d fd with
  | (some obj, d') => ([obj], d')
  | (none, d') => ([], d')

/-- `posix_duplicate` (posix.rs lines 104-112): `get_file(rt_fd)`; on a miss
return `-E_BAD_HANDLE` leaving the table unchanged, otherwise `push_file` the
same `Arc` (the identical object) under a fresh handle.  `none` is the panic
inside `push_file`'s `unwrap` (never reached from well-formed states). -/
def posix_duplicate (d : Descriptors) (fd : RtFd) : Option (RtFd × Descriptors) :=
  match get_file d fd with
  | some obj => push_file d obj
  | none => some (-(E_BAD_HANDLE : Int), d)

/-! ### Operation traces over the descriptor table

The public surface of the table (`new_file` / `posix_duplicate` /
`pop_file`-driven release, posix.rs lines 91-223) as a labelled transition
system, to state reachability invariants. -/

/-- One call on the descriptor-table surface: `alloc f` is `new_file(f)`,
`release fd` is the `pop_file(fd)` performed by `posix_close`, `dup fd` is
`posix_duplicate(fd)`. -/
inductive Op where
  | alloc (f : RtFd → PObj)
  | release (fd : RtFd)
  | dup (fd : RtFd)

/-- Effect of one call on the table state; `none` is a panic (the `unwrap`
inside `Descriptors::insert`). -/
def step (d : Descriptors) : Op → Option Descriptors
  | Op.alloc f => (d.insert f).map Prod.snd
  | Op.release fd => some (d.pop fd).2
  | Op.dup fd => (posix_duplicate d fd).map Prod.snd

/-- `Run d ops d'`: the call sequence `ops`, starting from `d`, executes
without panicking and ends in `d'`.  No discipline is imposed on callers: this
includes double releases of the same handle. -/
inductive Run : Descriptors → List Op → Descriptors → Prop where
  | nil (d : Descriptors) : Run d [] d
  | cons {d d' d'' : Descriptors} {op : Op} {ops : List Op} :
      step d op = some d' → Run d' ops d'' → Run d (op :: ops) d''

/-- Caller discipline for one call: a release targets a handle that is not
currently sitting in the free list (in particular, no double release of a
handle that has not been reallocated in between).  `alloc` and `dup` are
unrestricted. -/
def goodOp (d : Descriptors) : Op → Prop
  | Op.release fd => fd ∉ d.freelist
  | _ => True

/-- `RunGood d ops d'`: like `Run`, but every call obeys `goodOp` in the state
where it executes. -/
inductive RunGood : Descriptors → List Op → Descriptors → Prop where
  | nil (d : Descriptors) : RunGood d [] d
  | cons {d d' d'' : Descriptors} {op : Op} {ops : List Op} :
      goodOp d op → step d op = some d' → RunGood d' ops d'' → RunGood d (op :: ops) d''

/-- Invariant: every handle in the free list is a valid index strictly below
the length of the slot array. -/
def freelistInBounds (d : Descriptors) : Prop :=
  ∀ fd ∈ d.freelist, 0 ≤ fd ∧ fd.toNat < d.descriptors.length

/-! ### The dispatch-table installation routine (`main.rs`)

`_rt_entry` (main.rs lines 32-225) first asserts the ABI version and the
tamper-check slot, then performs a fixed sequence of atomic stores into the
vtable slots followed by a single release fence.  The store/fence sequence is
embedded as an event list. -/

/-- The named slots of `RtVdsoVtableV1` written by `_rt_entry`, in source
order. -/
inductive Slot where
  | load_vdso | log_to_kernel
  | alloc | alloc_zeroed | dealloc | realloc
  | time_instant_now | time_ticks_to_nanos | time_nanos_to_ticks
  | time_ticks_in_sec | time_abs_ticks_to_nanos
  | futex_wait | futex_wake | futex_wake_all
  | tls_create | tls_set | tls_get | tls_destroy
  | thread_spawn | thread_yield | thread_sleep | thread_set_name | thread_join
  | fs_open | fs_close | fs_get_file_attr | fs_fsync | fs_datasync | fs_truncate
  | fs_read | fs_write | fs_seek | fs_mkdir | fs_unlink | fs_rename | fs_rmdir
  | fs_rmdir_all | fs_set_perm | fs_stat | fs_canonicalize | fs_copy
  | fs_opendir | fs_closedir | fs_readdir | fs_getcwd | fs_chdir
deriving DecidableEq, Repr

/-- What kind of `u64` a store puts into a slot: the address of a function
(`funcPtr`), or a plain data value (`dataVal` — used once, for
`KernelStaticPage::get().tsc_in_sec` at main.rs lines 79-82). -/
inductive StoredVal where
  | funcPtr
  | dataVal
deriving DecidableEq, Repr

/-- Atomic memory orderings appearing in `_rt_entry`. -/
inductive MemOrder where
  | relaxed
  | release
deriving DecidableEq, Repr

/-- One visible memory event of `_rt_entry`. -/
inductive Event where
  | store (s : Slot) (v : StoredVal) (o : MemOrder)
  | fence (o : MemOrder)
deriving DecidableEq, Repr

/-- The store/fence sequence of `_rt_entry` (main.rs lines 39-225), in source
order.  Every store is `Ordering::Relaxed`; every stored value is the address
of the corresponding runtime function except `time_ticks_in_sec`, which
receives the TSC frequency data value; the routine ends with a single
`Ordering::Release` fence. -/
def rtEntryEvents : List Event := [
  Event.store Slot.load_vdso StoredVal.funcPtr MemOrder.relaxed,
  Event.store Slot.log_to_kernel StoredVal.funcPtr MemOrder.relaxed,
  Event.store Slot.alloc StoredVal.funcPtr MemOrder.relaxed,
  Event.store Slot.alloc_zeroed StoredVal.funcPtr MemOrder.relaxed,
  Event.store Slot.dealloc StoredVal.funcPtr MemOrder.relaxed,
  Event.store Slot.realloc StoredVal.funcPtr MemOrder.relaxed,
  Event.store Slot.time_instant_now StoredVal.funcPtr MemOrder.relaxed,
  Event.store Slot.time_ticks_to_nanos StoredVal.funcPtr MemOrder.relaxed,
  Event.store Slot.time_nanos_to_ticks StoredVal.funcPtr MemOrder.relaxed,
  Event.store Slot.time_ticks_in_sec StoredVal.dataVal MemOrder.relaxed,
  Event.store Slot.time_abs_ticks_to_nanos StoredVal.funcPtr MemOrder.relaxed,
  Event.store Slot.futex_wait StoredVal.funcPtr MemOrder.relaxed,
  Event.store Slot.futex_wake StoredVal.funcPtr MemOrder.relaxed,
  Event.store Slot.futex_wake_all StoredVal.funcPtr MemOrder.relaxed,
  Event.store Slot.tls_create StoredVal.funcPtr MemOrder.relaxed,
  Event.store Slot.tls_set StoredVal.funcPtr MemOrder.relaxed,
  Event.store Slot.tls_get StoredVal.funcPtr MemOrder.relaxed,
  Event.store Slot.tls_destroy StoredVal.funcPtr MemOrder.relaxed,
  Event.store Slot.thread_spawn StoredVal.funcPtr MemOrder.relaxed,
  Event.store Slot.thread_yield StoredVal.funcPtr MemOrder.relaxed,
  Event.store Slot.thread_sleep StoredVal.funcPtr MemOrder.relaxed,
  Event.store Slot.thread_set_name StoredVal.funcPtr MemOrder.relaxed,
  Event.store Slot.thread_join StoredVal.funcPtr MemOrder.relaxed,
  Event.store Slot.fs_open StoredVal.funcPtr MemOrder.relaxed,
  Event.store Slot.fs_close StoredVal.funcPtr MemOrder.relaxed,
  Event.store Slot.fs_get_file_attr StoredVal.funcPtr MemOrder.relaxed,
  Event.store Slot.fs_fsync StoredVal.funcPtr MemOrder.relaxed,
  Event.store Slot.fs_datasync StoredVal.funcPtr MemOrder.relaxed,
  Event.store Slot.fs_truncate StoredVal.funcPtr MemOrder.relaxed,
  Event.store Slot.fs_read StoredVal.funcPtr MemOrder.relaxed,
  Event.store Slot.fs_write StoredVal.funcPtr MemOrder.relaxed,
  Event.store Slot.fs_seek StoredVal.funcPtr MemOrder.relaxed,
  Event.store Slot.fs_mkdir StoredVal.funcPtr MemOrder.relaxed,
  Event.store Slot.fs_unlink StoredVal.funcPtr MemOrder.relaxed,
  Event.store Slot.fs_rename StoredVal.funcPtr MemOrder.relaxed,
  Event.store Slot.fs_rmdir StoredVal.funcPtr MemOrder.relaxed,
  Event.store Slot.fs_rmdir_all StoredVal.funcPtr MemOrder.relaxed,
  Event.store Slot.fs_set_perm StoredVal.funcPtr MemOrder.relaxed,
  Event.store Slot.fs_stat StoredVal.funcPtr MemOrder.relaxed,
  Event.store Slot.fs_canonicalize StoredVal.funcPtr MemOrder.relaxed,
  Event.store Slot.fs_copy StoredVal.funcPtr MemOrder.relaxed,
  Event.store Slot.fs_opendir StoredVal.funcPtr MemOrder.relaxed,
  Event.store Slot.fs_closedir StoredVal.funcPtr MemOrder.relaxed,
  Event.store Slot.fs_readdir StoredVal.funcPtr MemOrder.relaxed,
  Event.store Slot.fs_getcwd StoredVal.funcPtr MemOrder.relaxed,
  Event.store Slot.fs_chdir StoredVal.funcPtr MemOrder.relaxed,
  Event.fence MemOrder.release ]

/-- `_rt_entry(version)` (main.rs lines 32-225).  `assert_eq!(version, 1)`
and `assert_eq!(vtable.vdso_entry.load(Acquire), self_addr)` abort the process
on failure (`none`); when both pass, the routine performs `rtEntryEvents`. -/
def rt_entry (version : Nat) (vdso_entry : Nat) (self_addr : Nat) : Option (List Event) :=
  if version = 1 then
    if vdso_entry = self_addr then some rtEntryEvents else none
  else
    none

/-- The slots the claim's layout names: the memory, time, futex, TLS, thread
and filesystem groups plus the log-relay slot (spec section 6). -/
def namedSlots : List Slot := [
  Slot.alloc, Slot.alloc_zeroed, Slot.dealloc, Slot.realloc,
  Slot.time_instant_now, Slot.time_ticks_to_nanos, Slot.time_nanos_to_ticks,
  Slot.time_ticks_in_sec, Slot.time_abs_ticks_to_nanos,
  Slot.futex_wait, Slot.futex_wake, Slot.futex_wake_all,
  Slot.tls_create, Slot.tls_set, Slot.tls_get, Slot.tls_destroy,
  Slot.thread_spawn, Slot.thread_yield, Slot.thread_sleep,
  Slot.thread_set_name, Slot.thread_join,
  Slot.fs_open, Slot.fs_close, Slot.fs_get_file_attr, Slot.fs_fsync,
  Slot.fs_datasync, Slot.fs_truncate, Slot.fs_read, Slot.fs_write,
  Slot.fs_seek, Slot.fs_mkdir, Slot.fs_unlink, Slot.fs_rename, Slot.fs_rmdir,
  Slot.fs_rmdir_all, Slot.fs_set_perm, Slot.fs_stat, Slot.fs_canonicalize,
  Slot.fs_copy, Slot.fs_opendir, Slot.fs_closedir, Slot.fs_readdir,
  Slot.fs_getcwd, Slot.fs_chdir,
  Slot.log_to_kernel ]

/-- Number of stores to slot `s` in an event list. -/
def storeCount (evs : List Event) (s : Slot) : Nat :=
  evs.countP (fun e => match e with
    | Event.store s' _ _ => s' = s
    | _ => false)

/-- Number of stores to slot `s` carrying value kind `v` and ordering `o`. -/
def storeCountVO (evs : List Event) (s : Slot) (v : StoredVal) (o : MemOrder) : Nat :=
  evs.countP (fun e => e = Event.store s v o)

/-- Number of fences in an event list. -/
def fenceCount (evs : List Event) : Nat :=
  evs.countP (fun e => match e with
    | Event.fence _ => true
    | _ => false)

/-! ## Theorems -/

/-- `get` characterization for nonnegative handles. -/
theorem get_pos {d : Descriptors} {fd : RtFd} (h0 : 0 ≤ fd) :
    d.get fd = d.descriptors.get? fd.toNat := if_pos h0

/-- `get` characterization for negative handles. -/
theorem get_neg {d : Descriptors} {fd : RtFd} (h0 : ¬ 0 ≤ fd) :
    d.get fd = none := if_neg h0

/-- `pop` on a resolvable handle: swap in the Placeholder, push the handle. -/
theorem pop_hit {d : Descriptors} {fd : RtFd} {obj : PObj} (h0 : 0 ≤ fd)
    (hq : d.descriptors.get? fd.toNat = some obj) :
    d.pop fd = (some obj,
      ⟨d.descriptors.set fd.toNat PObj.placeholder, fd :: d.freelist⟩) := by
  unfold Descriptors.pop
  rw [if_pos h0, hq]

/-- `pop` misses exactly where `get` misses, leaving the state unchanged. -/
theorem pop_miss {d : Descriptors} {fd : RtFd} (h : d.get fd = none) :
    d.pop fd = (none, d) := by
  unfold Descriptors.pop
  by_cases h0 : 0 ≤ fd
  · rw [get_pos h0] at h
    rw [if_pos h0, h]
  · rw [if_neg h0]

/-- Claim C8 (confirmed): `install(version)` (`_rt_entry`) fails fatally if and
only if the version differs from the sole supported value 1 or the vtable's
self-identifying entry-address slot does not equal the address of the install
routine itself; when both checks pass, install proceeds (performing the slot
stores and fence) without aborting. -/
theorem rt_entry_aborts_iff (version vdso_entry self_addr : Nat) :
    (rt_entry version vdso_entry self_addr = none ↔
      version ≠ 1 ∨ vdso_entry ≠ self_addr) ∧
    (version = 1 → vdso_entry = self_addr →
      rt_entry version vdso_entry self_addr = some rtEntryEvents) := by
  unfold rt_entry
  constructor
  · by_cases h1 : version = 1 <;> by_cases h2 : vdso_entry = self_addr <;>
      simp [h1, h2]
  · intro h1 h2
    simp [h1, h2]

/-- Witness for `rt_entry_aborts_iff` at concrete inputs. -/
theorem rt_entry_aborts_iff_witness :
    (rt_entry 2 7 7 = none ↔ (2 : Nat) ≠ 1 ∨ (7 : Nat) ≠ 7) ∧
    ((2 : Nat) = 1 → (7 : Nat) = 7 → rt_entry 2 7 7 = some rtEntryEvents) :=
  rt_entry_aborts_iff 2 7 7

/-- Claim C9, counterexample: the store into the `time_ticks_in_sec`
(ticks-per-second) slot carries a plain data value
(`KernelStaticPage::get().tsc_in_sec`, main.rs lines 79-82), not a function
pointer — no function-pointer store to that slot occurs at all — so "writes a
function pointer into every named slot" is false. -/
theorem rt_entry_ticks_in_sec_not_funcptr :
    Event.store Slot.time_ticks_in_sec StoredVal.dataVal MemOrder.relaxed ∈ rtEntryEvents ∧
    storeCountVO rtEntryEvents Slot.time_ticks_in_sec StoredVal.funcPtr MemOrder.relaxed = 0 := by
  decide

/-- Claim C9 (corrected): a successful install writes every named slot of the
fixed layout (memory, time, futex, TLS, thread, filesystem groups plus the
log-relay slot) exactly once, each store with relaxed ordering; every such
store carries a function pointer except the ticks-per-second slot, which
receives the TSC-frequency data value; and the routine issues exactly one
fence, a release fence, placed after the final slot write (it is the last
event). -/
theorem rt_entry_install_layout :
    (∀ s ∈ namedSlots, storeCount rtEntryEvents s = 1) ∧
    (∀ s ∈ namedSlots, s ≠ Slot.time_ticks_in_sec →
      storeCountVO rtEntryEvents s StoredVal.funcPtr MemOrder.relaxed = 1) ∧
    storeCountVO rtEntryEvents Slot.time_ticks_in_sec StoredVal.dataVal MemOrder.relaxed = 1 ∧
    fenceCount rtEntryEvents = 1 ∧
    rtEntryEvents.getLast? = some (Event.fence MemOrder.release) := by
  decide

/-- Claim C3, counterexample: the default (unimplemented) `poll_add` does not
return the invalid-argument error code — it panics (`todo!()`), so
"every unimplemented operation returns an error code ... and never crashes or
panics" is false. -/
theorem default_poll_add_panics :
    defaultFile.poll_add 0 0 0 = POut.panic ∧
    (defaultFile.poll_add 0 0 0).isErr = false ∧
    defaultFile.poll_add 0 0 0 ≠ POut.err E_INVALID_ARGUMENT := by
  decide

/-- Claim C3 (corrected): for a variant implementing none of the capability
interface (all trait defaults), the unimplemented file operations `read`,
`write`, `flush`, `close` return the bad-handle error code; the unimplemented
poll registrations `poll_add`, `poll_set`, `poll_del` do not return an error
code — their defaults are `todo!()` and panic. -/
theorem default_ops_behaviour (buf wbuf : List Nat) (pfd : RtFd) (tok : Token)
    (ins : Interests) :
    defaultFile.read buf = POut.err E_BAD_HANDLE ∧
    defaultFile.write wbuf = POut.err E_BAD_HANDLE ∧
    defaultFile.flush = POut.err E_BAD_HANDLE ∧
    defaultFile.close = POut.err E_BAD_HANDLE ∧
    defaultFile.poll_add pfd tok ins = POut.panic ∧
    defaultFile.poll_set pfd tok ins = POut.panic ∧
    defaultFile.poll_del pfd = POut.panic :=
  ⟨rfl, rfl, rfl, rfl, rfl, rfl, rfl⟩

/-- Witness for `default_ops_behaviour` at concrete inputs. -/
theorem default_ops_behaviour_witness :
    defaultFile.read [1] = POut.err E_BAD_HANDLE ∧
    defaultFile.write [2] = POut.err E_BAD_HANDLE ∧
    defaultFile.flush = POut.err E_BAD_HANDLE ∧
    defaultFile.close = POut.err E_BAD_HANDLE ∧
    defaultFile.poll_add 3 4 5 = POut.panic ∧
    defaultFile.poll_set 3 4 5 = POut.panic ∧
    defaultFile.poll_del 3 = POut.panic :=
  default_ops_behaviour [1] [2] 3 4 5

/-- Claim C5, counterexample: the Placeholder's `close` (like its other
operations) does not fail with an error — it panics, so "every operation of
the Placeholder object fails with an error ... never ... a crash" is false. -/
theorem placeholder_close_panics :
    Placeholder.close = POut.panic ∧
    (Placeholder.close).isErr = false := by
  decide

/-- Claim C5 (corrected): every operation of the Placeholder object panics
(`read`/`write`/`flush`/`close` are overridden to `panic!()`; the inherited
poll defaults are `todo!()`), rather than failing with an error; and the slot
freshly reserved by `get_free_fd` during the allocation gap does hold the
Placeholder, so a reader resolving that handle in the gap observes the
panicking Placeholder, never undefined state. -/
theorem placeholder_ops_panic (buf wbuf : List Nat) (pfd : RtFd) (tok : Token)
    (ins : Interests) (d : Descriptors) (hfl : d.freelist = []) :
    (Placeholder.read buf = POut.panic ∧
     Placeholder.write wbuf = POut.panic ∧
     Placeholder.flush = POut.panic ∧
     Placeholder.close = POut.panic ∧
     Placeholder.poll_add pfd tok ins = POut.panic ∧
     Placeholder.poll_set pfd tok ins = POut.panic ∧
     Placeholder.poll_del pfd = POut.panic) ∧
    (d.get_free_fd).2.get (d.get_free_fd).1 = some PObj.placeholder := by
  refine ⟨⟨rfl, rfl, rfl, rfl, rfl, rfl, rfl⟩, ?_⟩
  obtain ⟨ds, fl⟩ := d
  simp only at hfl
  subst hfl
  simp [Descriptors.get_free_fd, Descriptors.get, List.get?_concat_length]

/-- Witness for `placeholder_ops_panic` at concrete inputs. -/
theorem placeholder_ops_panic_witness :
    ((Placeholder.read [1] = POut.panic ∧
      Placeholder.write [2] = POut.panic ∧
      Placeholder.flush = POut.panic ∧
      Placeholder.close = POut.panic ∧
      Placeholder.poll_add 3 4 5 = POut.panic ∧
      Placeholder.poll_set 3 4 5 = POut.panic ∧
      Placeholder.poll_del 3 = POut.panic) ∧
     ((⟨[PObj.file 9], []⟩ : Descriptors).get_free_fd).2.get
        ((⟨[PObj.file 9], []⟩ : Descriptors).get_free_fd).1 = some PObj.placeholder) :=
  placeholder_ops_panic [1] [2] 3 4 5 ⟨[PObj.file 9], []⟩ rfl

/-- Claim C7 (confirmed): from the empty table, `allocate(A)` returns 0,
`allocate(B)` returns 1, `release(0)` leaves exactly `[0]` in the free list,
`allocate(C)` reuses handle 0 leaving the free list empty, and `lookup(1)`
afterwards still returns B's object. -/
theorem scenario_alloc_release_reuse :
    Descriptors.new.insert (fun _ => PObj.file 20) =
      some (0, ⟨[PObj.file 20], []⟩) ∧
    (⟨[PObj.file 20], []⟩ : Descriptors).insert (fun _ => PObj.file 21) =
      some (1, ⟨[PObj.file 20, PObj.file 21], []⟩) ∧
    (⟨[PObj.file 20, PObj.file 21], []⟩ : Descriptors).pop 0 =
      (some (PObj.file 20), ⟨[PObj.placeholder, PObj.file 21], [0]⟩) ∧
    (⟨[PObj.placeholder, PObj.file 21], [0]⟩ : Descriptors).insert
        (fun _ => PObj.file 22) =
      some (0, ⟨[PObj.file 22, PObj.file 21], []⟩) ∧
    (⟨[PObj.file 22, PObj.file 21], []⟩ : Descriptors).get 1 =
      some (PObj.file 21) := by
  decide

/-- Claim C1, counterexample: after `allocate` returns handle 0 for an object
and `duplicate(0)` returns handle 1 aliasing it, `posix_close(0)` invokes
`close()` on the shared object while handle 1 still resolves to it, and
`posix_close(1)` invokes `close()` on the very same object a second time — so
`close()` runs twice per object and not only when the table drops its last
held reference. -/
theorem close_runs_per_handle_cex :
    Descriptors.new.insert (fun _ => PObj.file 5) =
      some (0, ⟨[PObj.file 5], []⟩) ∧
    posix_duplicate ⟨[PObj.file 5], []⟩ 0 =
      some (1, ⟨[PObj.file 5, PObj.file 5], []⟩) ∧
    posix_close ⟨[PObj.file 5, PObj.file 5], []⟩ 0 =
      ([PObj.file 5], ⟨[PObj.placeholder, PObj.file 5], [0]⟩) ∧
    (⟨[PObj.placeholder, PObj.file 5], [0]⟩ : Descriptors).get 1 =
      some (PObj.file 5) ∧
    posix_close ⟨[PObj.placeholder, PObj.file 5], [0]⟩ 1 =
      ([PObj.file 5], ⟨[PObj.placeholder, PObj.placeholder], [1, 0]⟩) := by
  decide

/-- Claim C1 (corrected): `posix_close` invokes `close()` exactly once per
successful call — once per handle, not once per object: it runs `close()` on
the popped slot occupant even while duplicate handles still share the object.
Closing one handle does not disturb any other handle: after
`duplicate(h) -> h2`, closing `h` leaves `lookup(h2)` unchanged (still the
shared object); only the `Arc` memory is freed at the last reference. -/
theorem posix_close_per_handle (d : Descriptors) (fd fd2 : RtFd) (obj : PObj)
    (hget : d.get fd = some obj) (hne : fd2 ≠ fd) :
    (posix_close d fd).1 = [obj] ∧
    (posix_close d fd).2.get fd2 = d.get fd2 := by
  by_cases h0 : 0 ≤ fd
  case neg =>
    rw [get_neg h0] at hget
    exact Option.noConfusion hget
  case pos =>
  rw [get_pos h0] at hget
  unfold posix_close pop_file
  rw [pop_hit h0 hget]
  refine ⟨rfl, ?_⟩
  by_cases h02 : 0 ≤ fd2
  · rw [get_pos h02, get_pos h02]
    apply List.get?_set_ne
    intro hc
    apply hne
    rw [← Int.toNat_of_nonneg h02, ← Int.toNat_of_nonneg h0, hc]
  · rw [get_neg h02, get_neg h02]

/-- Witness for `posix_close_per_handle` at concrete inputs. -/
theorem posix_close_per_handle_witness :
    (posix_close ⟨[PObj.file 5, PObj.file 5], []⟩ 0).1 = [PObj.file 5] ∧
    (posix_close ⟨[PObj.file 5, PObj.file 5], []⟩ 0).2.get 1 =
      (⟨[PObj.file 5, PObj.file 5], []⟩ : Descriptors).get 1 :=
  posix_close_per_handle ⟨[PObj.file 5, PObj.file 5], []⟩ 0 1 (PObj.file 5)
    (by decide) (by decide)

/-- Claim C2, counterexample: `allocate` returns handle 0, `release(0)`
frees it; on the now released-and-not-reallocated index 0, `lookup` does not
report not-found — it returns the Placeholder object — and `release` also does
not report not-found: it returns the Placeholder and pushes 0 onto the free
list a second time. -/
theorem lookup_released_cex :
    Descriptors.new.insert (fun _ => PObj.file 7) =
      some (0, ⟨[PObj.file 7], []⟩) ∧
    (⟨[PObj.file 7], []⟩ : Descriptors).pop 0 =
      (some (PObj.file 7), ⟨[PObj.placeholder], [0]⟩) ∧
    (⟨[PObj.placeholder], [0]⟩ : Descriptors).get 0 = some PObj.placeholder ∧
    (⟨[PObj.placeholder], [0]⟩ : Descriptors).pop 0 =
      (some PObj.placeholder, ⟨[PObj.placeholder], [0, 0]⟩) := by
  decide

/-- Claim C2 (corrected): on an index whose slot, if it exists, holds the
Placeholder (which covers both never-allocated indices and
released-and-not-reallocated ones): if the index is out of range
(never allocated), `lookup` and `release` both report not-found and `release`
leaves the table unchanged; if the index is in range (released and not since
reallocated), `lookup` returns the Placeholder — never a stale real object —
and `release` returns the Placeholder and pushes the index onto the free list
again. -/
theorem get_pop_on_free_slot (d : Descriptors) (fd : RtFd)
    (hfree : ∀ obj, d.get fd = some obj → obj = PObj.placeholder) :
    (d.get fd = none ∧ d.pop fd = (none, d)) ∨
    (d.get fd = some PObj.placeholder ∧
     (d.pop fd).1 = some PObj.placeholder ∧
     (d.pop fd).2.freelist = fd :: d.freelist) := by
  cases hg : d.get fd with
  | none =>
    left
    exact ⟨rfl, pop_miss hg⟩
  | some obj =>
    right
    have hobj := hfree obj hg
    subst hobj
    by_cases h0 : 0 ≤ fd
    · have hq : d.descriptors.get? fd.toNat = some PObj.placeholder := by
        rw [← get_pos h0]
        exact hg
      rw [pop_hit h0 hq]
      exact ⟨rfl, rfl, rfl⟩
    · rw [get_neg h0] at hg
      exact Option.noConfusion hg

/-- Witness for `get_pop_on_free_slot` at a concrete input (a released,
not-reallocated index). -/
theorem get_pop_on_free_slot_witness :
    ((⟨[PObj.placeholder], [0]⟩ : Descriptors).get 0 = none ∧
     (⟨[PObj.placeholder], [0]⟩ : Descriptors).pop 0 =
        (none, ⟨[PObj.placeholder], [0]⟩)) ∨
    ((⟨[PObj.placeholder], [0]⟩ : Descriptors).get 0 = some PObj.placeholder ∧
     ((⟨[PObj.placeholder], [0]⟩ : Descriptors).pop 0).1 = some PObj.placeholder ∧
     ((⟨[PObj.placeholder], [0]⟩ : Descriptors).pop 0).2.freelist =
        0 :: (⟨[PObj.placeholder], [0]⟩ : Descriptors).freelist) :=
  get_pop_on_free_slot ⟨[PObj.placeholder], [0]⟩ 0 (by
    intro obj h
    have h' : some PObj.placeholder = some obj := h
    injection h' with h2
    exact h2.symm)

/-! ### Reachability invariants: helper lemmas -/

/-- Case analysis on a successful `insert`: either the free list was empty and
a fresh slot was appended, or the head of the free list was reused. -/
theorem insert_eq_cases {d : Descriptors} {f : RtFd → PObj} {fd : RtFd}
    {d' : Descriptors} (h : d.insert f = some (fd, d')) :
    (d.freelist = [] ∧ fd = (d.descriptors.length : Int) ∧
      d' = ⟨(d.descriptors ++ [PObj.placeholder]).set d.descriptors.length
              (f (d.descriptors.length : Int)), []⟩) ∨
    (∃ rest, d.freelist = fd :: rest ∧ 0 ≤ fd ∧
      fd.toNat < d.descriptors.length ∧
      d' = ⟨d.descriptors.set fd.toNat (f fd), rest⟩) := by
  obtain ⟨ds, fl⟩ := d
  cases fl with
  | nil =>
    left
    unfold Descriptors.insert Descriptors.get_free_fd at h
    simp only [Int.toNat_natCast] at h
    rw [if_pos (Int.natCast_nonneg _), List.get?_concat_length] at h
    simp only [Option.some.injEq, Prod.mk.injEq] at h
    obtain ⟨h1, h2⟩ := h
    subst h1
    exact ⟨rfl, rfl, by rw [← h2]⟩
  | cons fd0 rest =>
    right
    unfold Descriptors.insert Descriptors.get_free_fd at h
    simp only at h
    by_cases h0 : 0 ≤ fd0
    · rw [if_pos h0] at h
      cases hq : ds.get? fd0.toNat with
      | some entry =>
        rw [hq] at h
        simp only [Option.some.injEq, Prod.mk.injEq] at h
        obtain ⟨h1, h2⟩ := h
        subst h1
        exact ⟨rest, rfl, h0, (List.get?_eq_some.mp hq).1, h2.symm⟩
      | none =>
        rw [hq] at h
        exact absurd h (by simp)
    · rw [if_neg h0] at h
      exact absurd h (by simp)

/-- Case analysis on `pop`: either the handle resolves (slot swapped to
Placeholder, handle pushed onto the free list, previous occupant returned) or
it does not (state unchanged, `none` returned). -/
theorem pop_eq_cases (d : Descriptors) (fd : RtFd) :
    (∃ obj, d.get fd = some obj ∧ 0 ≤ fd ∧ fd.toNat < d.descriptors.length ∧
      d.pop fd = (some obj,
        ⟨d.descriptors.set fd.toNat PObj.placeholder, fd :: d.freelist⟩)) ∨
    (d.get fd = none ∧ d.pop fd = (none, d)) := by
  cases hg : d.get fd with
  | none =>
    right
    exact ⟨rfl, pop_miss hg⟩
  | some obj =>
    left
    by_cases h0 : 0 ≤ fd
    · have hq : d.descriptors.get? fd.toNat = some obj := by
        rw [← get_pos h0]
        exact hg
      exact ⟨obj, rfl, h0, (List.get?_eq_some.mp hq).1, pop_hit h0 hq⟩
    · rw [get_neg h0] at hg
      exact Option.noConfusion hg

/-- Destructuring a successful `alloc` step. -/
theorem step_alloc_cases {d d' : Descriptors} {f : RtFd → PObj}
    (h : step d (Op.alloc f) = some d') : ∃ fd, d.insert f = some (fd, d') := by
  unfold step at h
  rw [Option.map_eq_some'] at h
  obtain ⟨⟨fd, dd⟩, h1, h2⟩ := h
  simp only at h2
  subst h2
  exact ⟨fd, h1⟩

/-- Destructuring a `release` step (always succeeds). -/
theorem step_release_cases {d d' : Descriptors} {fd : RtFd}
    (h : step d (Op.release fd) = some d') : d' = (d.pop fd).2 := by
  unfold step at h
  injection h with h
  exact h.symm

/-- Destructuring a successful `dup` step: either the source handle resolved
and the same object was pushed under a fresh handle, or the lookup missed and
the state is unchanged. -/
theorem step_dup_cases {d d' : Descriptors} {fd : RtFd}
    (h : step d (Op.dup fd) = some d') :
    (∃ obj fd2, d.get fd = some obj ∧
      d.insert (fun _ => obj) = some (fd2, d')) ∨
    (d.get fd = none ∧ d' = d) := by
  have h' : Option.map Prod.snd (match d.get fd with
      | some obj => d.insert fun _ => obj
      | none => some (-(E_BAD_HANDLE : Int), d)) = some d' := h
  clear h
  cases hg : d.get fd with
  | some obj =>
    left
    rw [hg] at h'
    simp only at h'
    rw [Option.map_eq_some'] at h'
    obtain ⟨⟨fd2, dd⟩, h1, h2⟩ := h'
    simp only at h2
    subst h2
    exact ⟨obj, fd2, rfl, h1⟩
  | none =>
    right
    rw [hg] at h'
    simp only [Option.map_some'] at h'
    injection h' with h'
    exact ⟨rfl, h'.symm⟩

/-- `insert` preserves the free-list bounds invariant. -/
theorem freelistInBounds_insert {d d' : Descriptors} {f : RtFd → PObj}
    {fd : RtFd} (hb : freelistInBounds d) (h : d.insert f = some (fd, d')) :
    freelistInBounds d' := by
  rcases insert_eq_cases h with ⟨hfl, hfd, hd'⟩ | ⟨rest, hfl, h0, hlt, hd'⟩
  · subst hd'
    intro x hx
    exact absurd hx (by simp)
  · subst hd'
    intro x hx
    have hx' : x ∈ d.freelist := by
      rw [hfl]; exact List.mem_cons_of_mem _ hx
    have := hb x hx'
    simpa using this

/-- `pop` preserves the free-list bounds invariant. -/
theorem freelistInBounds_pop {d : Descriptors} (hb : freelistInBounds d)
    (fd : RtFd) : freelistInBounds (d.pop fd).2 := by
  rcases pop_eq_cases d fd with ⟨obj, _, h0, hlt, heq⟩ | ⟨_, heq⟩
  · rw [heq]
    intro x hx
    have hx' : x ∈ fd :: d.freelist := hx
    have hgoal : 0 ≤ x ∧ x.toNat < d.descriptors.length := by
      rcases List.mem_cons.mp hx' with rfl | hmem
      · exact ⟨h0, hlt⟩
      · exact hb x hmem
    simpa using hgoal
  · rw [heq]; exact hb

/-- From the bounds invariant, `insert` never hits its `unwrap` panic. -/
theorem insert_isSome_of_bounds {d : Descriptors} (hb : freelistInBounds d)
    (f : RtFd → PObj) : (d.insert f).isSome := by
  obtain ⟨ds, fl⟩ := d
  cases fl with
  | nil =>
    unfold Descriptors.insert Descriptors.get_free_fd
    simp only [Int.toNat_natCast]
    rw [if_pos (Int.natCast_nonneg _), List.get?_concat_length]
    rfl
  | cons fd0 rest =>
    have hbd := hb fd0 (List.mem_cons_self _ _)
    have hq : ds.get? fd0.toNat = some (ds.get ⟨fd0.toNat, hbd.2⟩) :=
      List.get?_eq_some.mpr ⟨hbd.2, rfl⟩
    unfold Descriptors.insert Descriptors.get_free_fd
    simp only
    rw [if_pos hbd.1, hq]
    rfl

/-- Any successful step preserves the free-list bounds invariant. -/
theorem freelistInBounds_step {d d' : Descriptors} {op : Op}
    (hb : freelistInBounds d) (h : step d op = some d') :
    freelistInBounds d' := by
  cases op with
  | alloc f =>
    obtain ⟨fd, hi⟩ := step_alloc_cases h
    exact freelistInBounds_insert hb hi
  | release fd =>
    rw [step_release_cases h]
    exact freelistInBounds_pop hb fd
  | dup fd =>
    rcases step_dup_cases h with ⟨obj, fd2, _, hi⟩ | ⟨_, rfl⟩
    · exact freelistInBounds_insert hb hi
    · exact hb

/-- Any run preserves the free-list bounds invariant. -/
theorem freelistInBounds_run {d d' : Descriptors} {ops : List Op}
    (h : Run d ops d') (hb : freelistInBounds d) : freelistInBounds d' := by
  induction h with
  | nil => exact hb
  | cons hs _ ih => exact ih (freelistInBounds_step hb hs)

/-- `insert` preserves free-list distinctness (it removes at most the head). -/
theorem nodup_insert {d d' : Descriptors} {f : RtFd → PObj} {fd : RtFd}
    (h : d.insert f = some (fd, d')) (hnd : d.freelist.Nodup) :
    d'.freelist.Nodup := by
  rcases insert_eq_cases h with ⟨_, _, hd'⟩ | ⟨rest, hfl, _, _, hd'⟩
  · subst hd'
    exact List.nodup_nil
  · subst hd'
    rw [hfl] at hnd
    exact hnd.of_cons

/-- A disciplined step (release only of handles not in the free list)
preserves free-list distinctness. -/
theorem nodup_stepGood {d d' : Descriptors} {op : Op} (hg : goodOp d op)
    (h : step d op = some d') (hnd : d.freelist.Nodup) :
    d'.freelist.Nodup := by
  cases op with
  | alloc f =>
    obtain ⟨fd, hi⟩ := step_alloc_cases h
    exact nodup_insert hi hnd
  | release fd =>
    rw [step_release_cases h]
    rcases pop_eq_cases d fd with ⟨obj, _, _, _, heq⟩ | ⟨_, heq⟩
    · rw [heq]
      exact List.nodup_cons.mpr ⟨hg, hnd⟩
    · rw [heq]; exact hnd
  | dup fd =>
    rcases step_dup_cases h with ⟨obj, fd2, _, hi⟩ | ⟨_, rfl⟩
    · exact nodup_insert hi hnd
    · exact hnd

/-- A disciplined run preserves free-list distinctness. -/
theorem nodup_runGood {d d' : Descriptors} {ops : List Op}
    (h : RunGood d ops d') (hnd : d.freelist.Nodup) : d'.freelist.Nodup := by
  induction h with
  | nil => exact hnd
  | cons hg hs _ ih => exact ih (nodup_stepGood hg hs hnd)

/-- Right after a successful `insert`, the returned handle resolves to the
constructed object and (given a duplicate-free free list before the call) the
handle is not in the free list. -/
theorem insert_get_self {d d' : Descriptors} {f : RtFd → PObj} {fd : RtFd}
    (h : d.insert f = some (fd, d')) (hnd : d.freelist.Nodup) :
    d'.get fd = some (f fd) ∧ fd ∉ d'.freelist := by
  rcases insert_eq_cases h with ⟨_, hfd, hd'⟩ | ⟨rest, hfl, h0, hlt, hd'⟩
  · subst hd'
    subst hfd
    refine ⟨?_, by simp⟩
    rw [get_pos (Int.natCast_nonneg _)]
    simp only [Int.toNat_natCast]
    show ((d.descriptors ++ [PObj.placeholder]).set d.descriptors.length
        (f (d.descriptors.length : Int))).get? d.descriptors.length =
      some (f (d.descriptors.length : Int))
    rw [List.get?_eq_getElem?]
    apply List.getElem?_set_self
    simp
  · subst hd'
    constructor
    · rw [get_pos h0]
      show (d.descriptors.set fd.toNat (f fd)).get? fd.toNat = some (f fd)
      rw [List.get?_eq_getElem?]
      exact List.getElem?_set_self hlt
    · rw [hfl] at hnd
      exact (List.nodup_cons.mp hnd).1

/-- A disciplined step that is not `release fd` leaves slot `fd` untouched and
keeps `fd` out of the free list. -/
theorem slot_preserved_stepGood {d d' : Descriptors} {op : Op} {fd : RtFd}
    {obj : PObj} (hg : goodOp d op) (hs : step d op = some d')
    (hne : op ≠ Op.release fd) (hget : d.get fd = some obj)
    (hnotin : fd ∉ d.freelist) :
    d'.get fd = some obj ∧ fd ∉ d'.freelist := by
  have h0 : 0 ≤ fd := by
    by_contra hc
    rw [get_neg hc] at hget
    exact Option.noConfusion hget
  have hq : d.descriptors.get? fd.toNat = some obj := by
    rw [← get_pos h0]
    exact hget
  have hlt : fd.toNat < d.descriptors.length := (List.get?_eq_some.mp hq).1
  have hinsert : ∀ {g : RtFd → PObj} {k : RtFd} {dd : Descriptors},
      d.insert g = some (k, dd) →
      dd.get fd = some obj ∧ fd ∉ dd.freelist := by
    intro g k dd hi
    rcases insert_eq_cases hi with ⟨hfl, hk, hdd⟩ | ⟨rest, hfl, hk0, hklt, hdd⟩
    · subst hdd
      refine ⟨?_, by simp⟩
      rw [get_pos h0, List.get?_eq_getElem?,
        List.getElem?_set_ne (by omega),
        List.getElem?_append_left hlt, ← List.get?_eq_getElem?]
      exact hq
    · subst hdd
      have hkne : k ≠ fd := by
        intro hc
        subst hc
        exact hnotin (by rw [hfl]; exact List.mem_cons_self _ _)
      have hknat : k.toNat ≠ fd.toNat := by
        intro hc
        apply hkne
        rw [← Int.toNat_of_nonneg hk0, ← Int.toNat_of_nonneg h0, hc]
      constructor
      · rw [get_pos h0, List.get?_set_ne _ _ hknat]
        exact hq
      · intro hc
        exact hnotin (by rw [hfl]; exact List.mem_cons_of_mem _ hc)
  cases op with
  | alloc g =>
    obtain ⟨k, hi⟩ := step_alloc_cases hs
    exact hinsert hi
  | release k =>
    have hkne : k ≠ fd := fun hc => hne (by rw [hc])
    rw [step_release_cases hs]
    rcases pop_eq_cases d k with ⟨obj2, _, hk0, hklt, heq⟩ | ⟨_, heq⟩
    · rw [heq]
      have hknat : k.toNat ≠ fd.toNat := by
        intro hc
        apply hkne
        rw [← Int.toNat_of_nonneg hk0, ← Int.toNat_of_nonneg h0, hc]
      constructor
      · rw [get_pos h0, List.get?_set_ne _ _ hknat]
        exact hq
      · intro hc
        rcases List.mem_cons.mp hc with rfl | hmem
        · exact hkne rfl
        · exact hnotin hmem
    · rw [heq]
      exact ⟨hget, hnotin⟩
  | dup k =>
    rcases step_dup_cases hs with ⟨obj2, fd2, _, hi⟩ | ⟨_, rfl⟩
    · exact hinsert hi
    · exact ⟨hget, hnotin⟩

/-- A disciplined run containing no `release fd` leaves slot `fd` untouched
and keeps `fd` out of the free list. -/
theorem slot_preserved_runGood {d d' : Descriptors} {ops : List Op} {fd : RtFd}
    {obj : PObj} (h : RunGood d ops d') (havoid : Op.release fd ∉ ops)
    (hget : d.get fd = some obj) (hnotin : fd ∉ d.freelist) :
    d'.get fd = some obj ∧ fd ∉ d'.freelist := by
  induction h with
  | nil => exact ⟨hget, hnotin⟩
  | @cons da db dc op ops' hg hs htail ih =>
    have hne : op ≠ Op.release fd := fun hc =>
      havoid (by rw [hc]; exact List.mem_cons_self _ _)
    have hstep := slot_preserved_stepGood hg hs hne hget hnotin
    exact ih (fun hc => havoid (List.mem_cons_of_mem _ hc)) hstep.1 hstep.2

/-- Claim C10 (confirmed): in every state reachable from the empty table by
any sequence of allocate, release and duplicate calls (no caller discipline
assumed — double releases included), every handle stored in the free list is a
valid index strictly below the length of the slot array; consequently
`insert`'s re-lookup of a handle just taken from the free list always finds a
slot and its internal `unwrap` never panics, for every constructor. -/
theorem run_freelist_bounded (ops : List Op) (d : Descriptors)
    (h : Run Descriptors.new ops d) :
    freelistInBounds d ∧ ∀ f, (d.insert f).isSome := by
  have hb : freelistInBounds d :=
    freelistInBounds_run h (fun fd hfd => absurd hfd (by simp [Descriptors.new]))
  exact ⟨hb, fun f => insert_isSome_of_bounds hb f⟩

/-- Witness for `run_freelist_bounded`: a concrete run ending in a state with
a nonempty free list. -/
theorem run_freelist_bounded_witness :
    freelistInBounds ⟨[PObj.placeholder], [0]⟩ ∧
    ∀ f, ((⟨[PObj.placeholder], [0]⟩ : Descriptors).insert f).isSome :=
  run_freelist_bounded [Op.alloc (fun _ => PObj.file 30), Op.release 0]
    ⟨[PObj.placeholder], [0]⟩
    (Run.cons (by rfl) (Run.cons (by rfl) (Run.nil _)))

/-- Claim C4, counterexample: the call sequence allocate; release(0);
release(0) — release called twice on the same handle — executes from the empty
table and leaves the free list `[0, 0]`, in which handle 0 appears twice. -/
theorem freelist_duplicate_cex :
    Run Descriptors.new
      [Op.alloc (fun _ => PObj.file 3), Op.release 0, Op.release 0]
      ⟨[PObj.placeholder], [0, 0]⟩ ∧
    ¬ (Descriptors.mk [PObj.placeholder] [0, 0]).freelist.Nodup := by
  constructor
  · exact Run.cons (by rfl) (Run.cons (by rfl) (Run.cons (by rfl) (Run.nil _)))
  · decide

/-- Claim C4 (corrected): for every state reachable from the empty table by a
sequence of allocate, lookup, release and duplicate calls in which every
release targets a handle not currently sitting in the free list (ruling out
release called a second time on a handle that was not reallocated in between),
no handle value appears twice in the free list. -/
theorem runGood_freelist_nodup (ops : List Op) (d : Descriptors)
    (h : RunGood Descriptors.new ops d) : d.freelist.Nodup :=
  nodup_runGood h List.nodup_nil

/-- Witness for `runGood_freelist_nodup`: a concrete disciplined run. -/
theorem runGood_freelist_nodup_witness :
    (Descriptors.mk [PObj.placeholder] [0]).freelist.Nodup :=
  runGood_freelist_nodup [Op.alloc (fun _ => PObj.file 31), Op.release 0]
    ⟨[PObj.placeholder], [0]⟩
    (RunGood.cons trivial (by rfl)
      (RunGood.cons (by show (0 : RtFd) ∉ ([] : List RtFd); simp) (by rfl)
        (RunGood.nil _)))

/-- Claim C6, counterexample: from the empty table, the call sequence
allocate; release(0); release(0) puts 0 twice in the free list; a subsequent
allocate with a constructor building object B returns handle 0, and one more
allocate — with no release of handle 0 in between — overwrites slot 0, after
which lookup(0) returns the newest object, not B.  So "lookup(h) succeeds and
returns the object built by c at every point before release(h)" fails on a
reachable state. -/
theorem allocate_lookup_clobber_cex :
    Run Descriptors.new
      [Op.alloc (fun _ => PObj.file 0), Op.release 0, Op.release 0]
      ⟨[PObj.placeholder], [0, 0]⟩ ∧
    (⟨[PObj.placeholder], [0, 0]⟩ : Descriptors).insert (fun _ => PObj.file 1) =
      some (0, ⟨[PObj.file 1], [0]⟩) ∧
    (⟨[PObj.file 1], [0]⟩ : Descriptors).insert (fun _ => PObj.file 2) =
      some (0, ⟨[PObj.file 2], []⟩) ∧
    (⟨[PObj.file 2], []⟩ : Descriptors).get 0 = some (PObj.file 2) ∧
    some (PObj.file 2) ≠ some (PObj.file 1) := by
  refine ⟨?_, by decide, by decide, by decide, by decide⟩
  exact Run.cons (by rfl) (Run.cons (by rfl) (Run.cons (by rfl) (Run.nil _)))

/-- Claim C6 (corrected): for every handle `fd` returned by an allocate
performed in a state reachable from the empty table by a disciplined run
(every release targets a handle not currently in the free list), and for every
disciplined continuation that never calls release on `fd`, lookup of `fd`
succeeds and returns exactly the object built by the allocate's constructor
applied to `fd`. -/
theorem allocate_lookup_stable (ops0 : List Op) (d : Descriptors)
    (h0 : RunGood Descriptors.new ops0 d) (f : RtFd → PObj) (fd : RtFd)
    (d1 : Descriptors) (halloc : d.insert f = some (fd, d1))
    (ops1 : List Op) (d2 : Descriptors) (h1 : RunGood d1 ops1 d2)
    (havoid : Op.release fd ∉ ops1) :
    d2.get fd = some (f fd) := by
  have hnd : d.freelist.Nodup :=
    nodup_runGood h0 List.nodup_nil
  have hstart := insert_get_self halloc hnd
  exact (slot_preserved_runGood h1 havoid hstart.1 hstart.2).1

/-- Witness for `allocate_lookup_stable`: allocate B at handle 1, then
release handle 0 and allocate again (reusing 0); lookup(1) still returns B. -/
theorem allocate_lookup_stable_witness :
    (⟨[PObj.file 40, PObj.file 41], []⟩ : Descriptors).get 1 =
      some (PObj.file 41) :=
  allocate_lookup_stable [Op.alloc (fun _ => PObj.file 40)]
    ⟨[PObj.file 40], []⟩
    (RunGood.cons trivial (by rfl) (RunGood.nil _))
    (fun _ => PObj.file 41) 1 ⟨[PObj.file 40, PObj.file 41], []⟩ (by rfl)
    [] ⟨[PObj.file 40, PObj.file 41], []⟩ (RunGood.nil _) (by simp)

end MotorOs
